import Mathlib

/-!
Verification of the document retrieval and chunking subsystem of the RAG
repository (`src/simple_doc_retrieval.py`, `src/utils/file_processor.py`,
`src/utils/gemini_handler.py`), as a shallow embedding in Lean 4.

Text is modelled as `List Char` (Python strings are sequences of code
points).  File-system and network effects (reading a file, calling the
generation model) are modelled by passing their results as explicit
parameters and by returning a value that records which external action the
code would take, so every definition is executable.
-/

/-- Python `s.lower()` restricted to the per-character lowering that the
repository relies on (extensions are ASCII). -/
def pyLower (s : String) : String := String.mk (s.data.map Char.toLower)

/-- Python `s.lstrip('.')`: drop every leading dot. -/
def lstripDot (s : String) : String := String.mk (s.data.dropWhile (fun c => c == '.'))

/-- Python `s.startswith(p)`. -/
def pyStartswith (s p : String) : Bool := p.data.isPrefixOf s.data

/-- Python slice `s[i:j]` for a non-negative start index `i` and an
arbitrary (possibly negative) end index `j`: a negative `j` counts from the
end of the sequence, and both bounds are clamped to the length. -/
def pySlice (s : List Char) (i : Nat) (j : Int) : List Char :=
  let stop : Nat := if j < 0 then s.length - (-j).toNat else min j.toNat s.length
  (s.take stop).drop i

/-- Python `range(i, stop, step)` for a positive step: the indices
`i, i + step, i + 2*step, ...` strictly below `stop`.  (The `step = 0` and
`step < 0` cases of `range` are handled at the call site in `chunk_text`.) -/
def pyRangeUp (i stop step : Nat) : List Nat :=
  if _h : i < stop ∧ 0 < step then i :: pyRangeUp (i + step) stop step else []
termination_by stop - i
decreasing_by omega

/-- Outcome of `SimpleDocRetrieval.chunk_text`: either a chunk list, or the
`ValueError` that Python `range` raises on a zero step. -/
inductive ChunkResult where
  | ok (chunks : List (List Char))
  | valueError (msg : String)
deriving DecidableEq, Repr

namespace SimpleDocRetrieval

/-- `SimpleDocRetrieval.chunk_text` (src/simple_doc_retrieval.py:99-110):
`if not text: return []`, then
`for i in range(0, len(text), self.chunk_size - self.chunk_overlap)` append
`text[i:i + self.chunk_size]` when it is non-empty.  A zero step makes
`range` raise `ValueError`; a negative step makes `range(0, len(text), step)`
empty, so the loop silently produces no chunks. -/
def chunk_text (chunk_size chunk_overlap : Int) (text : List Char) : ChunkResult :=
  if text = [] then .ok []
  else
    let step := chunk_size - chunk_overlap
    if step = 0 then .valueError ("range() arg 3 must not be zero")
    else if step < 0 then .ok []
    else
      let starts := pyRangeUp 0 text.length step.toNat
      .ok ((starts.map (fun i => pySlice text i ((i : Int) + chunk_size))).filter
        (fun c => !c.isEmpty))

end SimpleDocRetrieval

/-- Reassembly described by the spec: the first chunk, followed by every
later chunk with its first `overlap` characters removed. -/
def reassemble (overlap : Nat) : List (List Char) → List Char
  | [] => []
  | c :: cs => c ++ (cs.map (List.drop overlap)).flatten

/-- The value stored in `self.documents[file_name]`
(src/simple_doc_retrieval.py:127-131). -/
structure Document where
  path : String
  chunks : List (List Char)
  full_text : List Char
deriving DecidableEq, Repr

/-- Python dict assignment `d[k] = v` on an insertion-ordered association
list: an existing key keeps its position and gets the new value, a new key
is appended at the end. -/
def dictSet (m : List (String × Document)) (k : String) (v : Document) :
    List (String × Document) :=
  if m.any (fun p => p.1 == k) then m.map (fun p => if p.1 = k then (k, v) else p)
  else m ++ [(k, v)]

/-- The `SimpleDocRetrieval` object (src/simple_doc_retrieval.py:29-46).
`model` holds the name of the configured generative model;
`documents` is the insertion-ordered `file_name -> Document` dictionary. -/
structure SimpleDocRetrieval where
  api_key : String
  model : String
  temp_dir : String
  documents : List (String × Document)
  chunk_size : Int
  chunk_overlap : Int
deriving DecidableEq, Repr

namespace SimpleDocRetrieval

/-- `extract_text_from_file` (src/simple_doc_retrieval.py:48-65): dispatch
on the lowercased extension produced by `os.path.splitext`.  The three
extractor methods perform file I/O, so their results are passed in as the
oracle parameters `pdfText`, `txtText`, `docxText`; every unrecognized
extension yields `None`. -/
def extract_text_from_file (file_extension : String)
    (pdfText txtText docxText : List Char) : Option (List Char) :=
  let ext := pyLower file_extension
  if ext = (".pdf") then some pdfText
  else if ext = (".txt") then some txtText
  else if ext = (".docx") then some docxText
  else none

/-- `add_document` (src/simple_doc_retrieval.py:112-138).  `extracted` is
the result of `extract_text_from_file(file_path)` and `file_name` is
`os.path.basename(file_path)`, both passed in explicitly.  `if not
document_text` rejects both `None` and the empty string; the `ValueError`
that `chunk_text` can raise is caught by the surrounding `except`, which
returns `False`.  Returns the `bool` result paired with the updated
object. -/
def add_document (st : SimpleDocRetrieval) (file_path file_name : String)
    (extracted : Option (List Char)) : Bool × SimpleDocRetrieval :=
  match extracted with
  | none => (false, st)
  | some document_text =>
    if document_text = [] then (false, st)
    else
      match chunk_text st.chunk_size st.chunk_overlap document_text with
      | .valueError _ => (false, st)
      | .ok chunks =>
        let doc : Document :=
          { path := file_path, chunks := chunks, full_text := document_text }
        (true, { st with documents := dictSet st.documents file_name doc })

/-- The per-document block of the context that `query` assembles
(src/simple_doc_retrieval.py:150-162): a document with chunks contributes
its name, the first chunk truncated to 500 characters, and — only when
there is more than one chunk — the last 500 characters of the final chunk. -/
def docBlock (doc_name : String) (doc : Document) : List Char :=
  match doc.chunks with
  | [] => []
  | c0 :: rest =>
      ("Document: ").toList ++ doc_name.toList ++ ("\n").toList
      ++ ("Excerpt from beginning:\n").toList
      ++ (c0.take 500 ++ ("...\n\n").toList)
      ++ (if rest ≠ [] then
            ("Excerpt from end:\n").toList
            ++ (("...").toList
                ++ ((rest.getLastD c0).drop ((rest.getLastD c0).length - 500))
                ++ ("\n\n").toList)
          else [])

/-- The full context string assembled by `query`
(src/simple_doc_retrieval.py:147-162). -/
def contextFor (docs : List (String × Document)) : List Char :=
  ("Here are excerpts from relevant documents:\n\n").toList
  ++ (docs.map (fun p => docBlock p.1 p.2)).flatten

/-- The prompt template of `query` (src/simple_doc_retrieval.py:165-176),
an f-string with 12-space indentation. -/
def promptFor (context : List Char) (question : String) : List Char :=
  ("\n            I\x27ll provide you with some context from documents, and then ask a question.\n            Please answer the question based on the context provided.\n            \n            Context:\n            ").toList
  ++ context
  ++ ("\n            \n            Question: ").toList
  ++ question.toList
  ++ ("\n            \n            Please provide a comprehensive answer. If the information is not found in the context, \n            state that clearly and give a best guess based on your general knowledge.\n            ").toList

/-- What a call to `query` does: either return a string directly (the
external model is not invoked), or invoke
`self.model.generate_content(prompt)` with the assembled prompt. -/
inductive QueryOutcome where
  | reply (text : List Char)
  | generate (prompt : List Char)
deriving DecidableEq, Repr

/-- The sentinel returned when the store holds no documents
(src/simple_doc_retrieval.py:143). -/
def noDocumentsMsg : List Char := ("No documents have been added to the system.").toList

/-- `query` (src/simple_doc_retrieval.py:140-180): with an empty document
dictionary it returns the sentinel immediately; otherwise it assembles the
context and invokes the generation model on the prompt. -/
def query (st : SimpleDocRetrieval) (question : String) : QueryOutcome :=
  if st.documents = [] then .reply noDocumentsMsg
  else .generate (promptFor (contextFor st.documents) question)

/-- `clear` (src/simple_doc_retrieval.py:185-188): reset `self.documents`
to the empty dict and return `True`. -/
def clear (st : SimpleDocRetrieval) : Bool × SimpleDocRetrieval :=
  (true, { st with documents := [] })

end SimpleDocRetrieval

namespace FileProcessor

/-- Keys of `self.supported_extensions` (src/utils/file_processor.py:47-58). -/
def supported_extensions : List String :=
  [("pdf"), ("txt"), ("png"), ("jpg"), ("jpeg"), ("mp3"), ("wav"), ("mp4"), ("docx"), ("pptx")]

/-- The dictionary that `process_file` returns; `none` fields model absent
keys. -/
structure ProcessResult where
  success : Bool
  error : Option String
  file_path : Option String
  file_type : Option String
deriving DecidableEq, Repr

/-- `FileProcessor.process_file` (src/utils/file_processor.py:60-98):
`ext = os.path.splitext(file_path)[1].lstrip('.').lower()`; an extension
outside `supported_extensions` yields a failure record with an
"Unsupported file type" error before any per-type processing; otherwise the
per-type processor runs (its I/O-dependent result is the `oracle`
parameter) and the file path and type are added to it. -/
def process_file (file_path raw_ext : String) (oracle : ProcessResult) : ProcessResult :=
  let ext := pyLower (lstripDot raw_ext)
  if supported_extensions.contains ext then
    { oracle with file_path := some file_path, file_type := some ext }
  else
    { success := false, error := some (("Unsupported file type: ") ++ ext),
      file_path := some file_path, file_type := none }

end FileProcessor

namespace GeminiHandler

/-- One element of the list passed to `generate_content`: either prompt
text or an inline binary blob with its MIME type. -/
inductive Part where
  | text (s : String)
  | blob (mime_type : String) (data : List UInt8)
deriving DecidableEq, Repr

/-- What a call to `generate_multimodal_response` does: either return a
string directly (the external model is not invoked), or invoke
`generate_content` on a multimodal prompt. -/
inductive MMOutcome where
  | reply (s : String)
  | call (prompt : List Part)
deriving DecidableEq, Repr

/-- The extension fallback for the content type
(src/utils/gemini_handler.py:81-90), applied to
`os.path.splitext(media_path)[1].lower()`. -/
def fallbackContentType (ext : String) : String :=
  if ext = (".jpg") ∨ ext = (".jpeg") ∨ ext = (".png") then ("image/") ++ ext.drop 1
  else if ext = (".mp3") ∨ ext = (".wav") then ("audio/") ++ ext.drop 1
  else if ext = (".mp4") then ("video/mp4")
  else ("application/octet-stream")

/-- The content type determined by `generate_multimodal_response`
(src/utils/gemini_handler.py:78-90): `mimetypes.guess_type` (an external
table lookup, passed in as `guessed`), falling back on the lowercased file
extension when the guess is falsy. -/
def contentTypeOf (guessed : Option String) (splitext_ext : String) : String :=
  let ct := match guessed with
    | some c => c
    | none => ("")
  if ct = ("") then fallbackContentType (pyLower splitext_ext) else ct

/-- The prompt text built by `generate_multimodal_response`
(src/utils/gemini_handler.py:96-113).  `context` is the result of
`rag_manager.query(...)`, or the empty string when no RAG manager is
available. -/
def buildPromptText (text_prompt context : String) : String :=
  if context ≠ ("") then
    ("\n                Here is some relevant context information: \n                ")
    ++ context
    ++ ("\n                \n                Based on this context and the provided media, please answer the following:\n                ")
    ++ (if text_prompt ≠ ("") then text_prompt
        else ("Analyze and describe what you see in this media."))
    ++ ("\n                ")
  else if text_prompt ≠ ("") then text_prompt
  else ("Analyze and describe what you see in this media.")

/-- `generate_multimodal_response` (src/utils/gemini_handler.py:65-140).
The file read `media_bytes` and the MIME guess `guessed` are oracle
parameters.  Content types starting with `image/`, `audio/` or `video/`
lead to a single multimodal `generate_content` call carrying the prompt
text and the raw bytes with their MIME type; every other content type
returns the fixed "Unsupported media type." string without any model
call. -/
def generate_multimodal_response (guessed : Option String) (splitext_ext : String)
    (text_prompt : String) (media_bytes : List UInt8) (context : String) : MMOutcome :=
  let content_type := contentTypeOf guessed splitext_ext
  let prompt_text := buildPromptText text_prompt context
  if pyStartswith content_type ("image/") then
    .call [.text prompt_text, .blob content_type media_bytes]
  else if pyStartswith content_type ("audio/") || pyStartswith content_type ("video/") then
    .call [.text prompt_text, .blob content_type media_bytes]
  else
    .reply ("Unsupported media type.")

end GeminiHandler

/-- A sample store with one stored document named "a.txt", used to
instantiate universally quantified theorems on concrete inputs.  Its
chunking parameters are the valid pair `size = 5`, `overlap = 1`. -/
def demoStore : SimpleDocRetrieval :=
  { api_key := ("k"), model := ("gemini-1.5-pro"),
    temp_dir := ("/tmp/simple_doc_retrieval"),
    documents := [(("a.txt"),
      { path := ("p1"), chunks := [("x").toList], full_text := ("x").toList })],
    chunk_size := 5, chunk_overlap := 1 }

section ChunkLemmas

lemma drop_take_comm (l : List Char) (m i : Nat) :
    (l.take m).drop i = (l.drop i).take (m - i) := by
  rcases Nat.le_total i m with h | h
  · rw [List.take_drop, Nat.add_sub_cancel' h]
  · have h1 : (l.take m).length ≤ i := by
      simp only [List.length_take]
      omega
    rw [List.drop_eq_nil_of_le h1, Nat.sub_eq_zero_of_le h, List.take_zero]

lemma pySlice_add_nat (T : List Char) (i s : Nat) :
    pySlice T i ((i : Int) + (s : Int)) = (T.drop i).take s := by
  simp only [pySlice]
  rw [if_neg (by omega : ¬ ((i : Int) + (s : Int) < 0))]
  have h1 : ((i : Int) + (s : Int)).toNat = i + s := by omega
  rw [h1]
  have h2 : T.take (min (i + s) T.length) = T.take (i + s) := by
    rcases Nat.le_total (i + s) T.length with h | h
    · rw [Nat.min_eq_left h]
    · rw [Nat.min_eq_right h, List.take_length, List.take_of_length_le h]
  rw [h2, drop_take_comm, Nat.add_sub_cancel_left]

lemma pyRangeUp_mem_lt (j : Nat) : ∀ i n step, j ∈ pyRangeUp i n step → j < n := by
  intro i n step
  induction i, n, step using pyRangeUp.induct with
  | case1 i n step hc ih =>
    rw [pyRangeUp, dif_pos hc]
    intro hm
    rcases List.mem_cons.mp hm with rfl | hm
    · exact hc.1
    · exact ih hm
  | case2 i n step hc =>
    rw [pyRangeUp, dif_neg hc]
    intro hm
    exact absurd hm (List.not_mem_nil j)

lemma pyRangeUp_length : ∀ i n step, 0 < step →
    (pyRangeUp i n step).length = (n - i + step - 1) / step := by
  intro i n step
  induction i, n, step using pyRangeUp.induct with
  | case1 i n step hc ih =>
    intro hstep
    rw [pyRangeUp, dif_pos hc]
    simp only [List.length_cons, ih hstep]
    rcases Nat.le_total step (n - i) with hle | hlt
    · have e1 : n - (i + step) + step - 1 = n - i - 1 := by omega
      have e2 : n - i + step - 1 = (n - i - 1) + step := by omega
      rw [e1, e2, Nat.add_div_right _ hstep]
    · have e1 : n - (i + step) = 0 := by omega
      have e2 : n - i + step - 1 = (n - i - 1) + step := by omega
      rw [e1, e2, Nat.add_div_right _ hstep, Nat.zero_add]
      rw [Nat.div_eq_of_lt (by omega), Nat.div_eq_of_lt (by omega)]
  | case2 i n step hc =>
    intro hstep
    rw [pyRangeUp, dif_neg hc]
    have hn : n ≤ i := by omega
    simp only [List.length_nil]
    have e : n - i = 0 := by omega
    rw [e, Nat.zero_add]
    exact (Nat.div_eq_of_lt (by omega)).symm

lemma flatten_tail_chunks (T : List Char) (s o : Nat) (h : o < s) :
    ∀ i n step, n = T.length → step = s - o →
    ((((pyRangeUp i n step).map (fun j => (T.drop j).take s)).map (List.drop o)).flatten)
      = T.drop (i + o) := by
  intro i n step
  induction i, n, step using pyRangeUp.induct with
  | case1 i n step hc ih =>
    rintro rfl rfl
    rw [pyRangeUp, dif_pos hc]
    simp only [List.map_cons, List.flatten_cons]
    rw [ih rfl rfl]
    rw [drop_take_comm]
    rw [show ((T.drop i).drop o) = T.drop (i + o) from List.drop_drop o i T]
    rw [show i + (s - o) + o = (i + o) + (s - o) from by omega]
    rw [← List.drop_drop (s - o) (i + o) T]
    exact List.take_append_drop _ _
  | case2 i n step hc =>
    rintro rfl rfl
    have hn : T.length ≤ i := by omega
    rw [pyRangeUp, dif_neg hc]
    simp only [List.map_nil, List.flatten_nil]
    exact (List.drop_eq_nil_of_le (by omega)).symm

end ChunkLemmas

section DictLemmas

lemma mem_dictSet (m : List (String × Document)) (k : String) (v : Document)
    (d : String × Document) (hd : d ∈ dictSet m k v) : d ∈ m ∨ d = (k, v) := by
  unfold dictSet at hd
  by_cases hc : m.any (fun p => p.1 == k)
  · rw [if_pos hc] at hd
    rcases List.mem_map.mp hd with ⟨p, hp, rfl⟩
    by_cases hpk : p.1 = k
    · right
      simp [hpk]
    · left
      simpa [hpk] using hp
  · rw [if_neg hc] at hd
    rcases List.mem_append.mp hd with h | h
    · exact Or.inl h
    · right
      simpa using h

lemma lookup_dictSet (m : List (String × Document)) (k : String) (v : Document) :
    List.lookup k (dictSet m k v) = some v := by
  unfold dictSet
  by_cases hc : m.any (fun p => p.1 == k)
  · rw [if_pos hc]
    induction m with
    | nil => simp at hc
    | cons p m ih =>
      obtain ⟨pk, pv⟩ := p
      simp only [List.map_cons]
      by_cases hpk : pk = k
      · subst hpk
        dsimp only
        rw [if_pos rfl, List.lookup_cons]
        simp
      · have hc2 : m.any (fun p => p.1 == k) := by
          simp only [List.any_cons] at hc
          rcases Bool.or_eq_true_iff.mp hc with h | h
          · exact absurd (by simpa using h) hpk
          · exact h
        simp only [hpk, if_false]
        rw [List.lookup_cons]
        have : (k == pk) = false := by
          simp [Ne.symm hpk]
        rw [this]
        exact ih hc2
  · rw [if_neg hc]
    induction m with
    | nil => simp [List.lookup]
    | cons p m ih =>
      obtain ⟨pk, pv⟩ := p
      have hpk : ¬ (pk = k) := by
        intro he
        exact hc (by simp [he])
      rw [List.cons_append, List.lookup_cons]
      have : (k == pk) = false := by
        simp [Ne.symm hpk]
      rw [this]
      exact ih (by
        intro hm
        exact hc (by
          simp only [List.any_cons, Bool.or_eq_true_iff]
          exact Or.inr hm))

lemma dictSet_dictSet (m : List (String × Document)) (k : String) (v : Document) :
    dictSet (dictSet m k v) k v = dictSet m k v := by
  unfold dictSet
  by_cases hc : m.any (fun p => p.1 == k)
  · rw [if_pos hc]
    have hc2 : (m.map (fun p => if p.1 = k then (k, v) else p)).any (fun p => p.1 == k) := by
      rcases List.any_eq_true.mp hc with ⟨p, hp, hpk⟩
      refine List.any_eq_true.mpr ⟨_, List.mem_map_of_mem _ hp, ?_⟩
      have hpe : p.1 = k := by simpa using hpk
      simp [hpe]
    rw [if_pos hc2, List.map_map]
    refine List.map_congr_left ?_
    intro p _
    by_cases hpk : p.1 = k <;> simp [Function.comp, hpk]
  · rw [if_neg hc]
    have hc2 : (m ++ [(k, v)]).any (fun p => p.1 == k) := by
      simp
    rw [if_pos hc2, List.map_append]
    have h1 : m.map (fun p => if p.1 = k then (k, v) else p) = m := by
      conv_rhs => rw [← List.map_id m]
      refine List.map_congr_left ?_
      intro p hp
      have hpk : ¬ (p.1 = k) := by
        intro he
        exact hc (List.any_eq_true.mpr ⟨p, hp, by simp [he]⟩)
      simp [hpk]
    rw [h1]
    simp

end DictLemmas

/-- C2: for every text `T` and every `size > overlap ≥ 0`, `chunk_text`
produces a chunk list with no empty chunk, with exactly
`⌈len(T) / (size - overlap)⌉` chunks (0 for empty `T`), and such that the
first chunk followed by every later chunk stripped of its first `overlap`
characters reconstructs `T` exactly. -/
theorem chunk_text_correct (s o : Nat) (h : o < s) (T : List Char) :
    ∃ cs, SimpleDocRetrieval.chunk_text (s : Int) (o : Int) T = ChunkResult.ok cs ∧
      (∀ c ∈ cs, c ≠ []) ∧
      cs.length = (T.length + (s - o) - 1) / (s - o) ∧
      reassemble o cs = T := by
  by_cases hT : T = []
  · subst hT
    refine ⟨[], ?_, ?_, ?_, rfl⟩
    · rw [SimpleDocRetrieval.chunk_text, if_pos rfl]
    · intro c hc
      exact absurd hc (List.not_mem_nil c)
    · simp only [List.length_nil]
      exact (Nat.div_eq_of_lt (by omega)).symm
  · have hs0 : ¬ ((s : Int) - (o : Int) = 0) := by omega
    have hs1 : ¬ ((s : Int) - (o : Int) < 0) := by omega
    have hsn : ((s : Int) - (o : Int)).toNat = s - o := by omega
    simp only [SimpleDocRetrieval.chunk_text, if_neg hT, if_neg hs0, if_neg hs1, hsn,
      pySlice_add_nat]
    have hmem : ∀ c ∈ (pyRangeUp 0 T.length (s - o)).map (fun i => (T.drop i).take s),
        c ≠ [] := by
      intro c hcmem
      rcases List.mem_map.mp hcmem with ⟨j, hj, rfl⟩
      have hjlt : j < T.length := pyRangeUp_mem_lt j 0 T.length (s - o) hj
      apply List.ne_nil_of_length_pos
      simp only [List.length_take, List.length_drop]
      omega
    have hfilter :
        ((pyRangeUp 0 T.length (s - o)).map (fun i => (T.drop i).take s)).filter
            (fun c => !c.isEmpty)
          = (pyRangeUp 0 T.length (s - o)).map (fun i => (T.drop i).take s) := by
      refine List.filter_eq_self.mpr ?_
      intro a ha
      simpa [List.isEmpty_eq_false] using hmem a ha
    rw [hfilter]
    refine ⟨_, rfl, hmem, ?_, ?_⟩
    · rw [List.length_map, pyRangeUp_length 0 T.length (s - o) (by omega), Nat.sub_zero]
    · have hcons : pyRangeUp 0 T.length (s - o)
          = 0 :: pyRangeUp (0 + (s - o)) T.length (s - o) := by
        rw [pyRangeUp]
        exact dif_pos ⟨List.length_pos.mpr hT, by omega⟩
      rw [hcons]
      simp only [List.map_cons, reassemble]
      rw [flatten_tail_chunks T s o h (0 + (s - o)) T.length (s - o) rfl rfl]
      simp only [List.drop_zero]
      rw [show (0 + (s - o)) + o = s from by omega]
      exact List.take_append_drop s T


/-- C3: on the text "hello world" with chunk size 5 and overlap 1 the
windows start at 0, 4, 8 and `chunk_text` returns exactly
["hello", "o wor", "rld"]. -/
theorem chunk_text_hello_world :
    SimpleDocRetrieval.chunk_text 5 1 (("hello world").toList)
      = ChunkResult.ok [("hello").toList, ("o wor").toList, ("rld").toList] := by
  simp [SimpleDocRetrieval.chunk_text, pyRangeUp, pySlice]

/-- C4 counterexample: with size 5 and overlap 7 (so size ≤ overlap) on the
nonempty text "hello", `chunk_text` silently returns the empty chunk list —
no distinguished configuration error is signalled, contradicting the claim
that the precondition is validated defensively. -/
theorem chunk_text_silent_invalid_cx :
    SimpleDocRetrieval.chunk_text 5 7 (("hello").toList) = ChunkResult.ok [] := by
  decide

/-- C4 amended: `chunk_text` performs no defensive validation.  When
`size - overlap < 0` the Python `range` is empty and the call silently
returns the empty chunk list; when `size = overlap` the call returns `[]`
for empty text and otherwise surfaces the raw `ValueError` raised by
`range`, not a validated configuration error.  (The loop never runs
forever: the embedding is a total function.) -/
theorem chunk_text_no_validation (size overlap : Int) (text : List Char) :
    (size - overlap < 0 →
      SimpleDocRetrieval.chunk_text size overlap text = ChunkResult.ok []) ∧
    (size - overlap = 0 →
      SimpleDocRetrieval.chunk_text size overlap text
        = if text = [] then ChunkResult.ok []
          else ChunkResult.valueError ("range() arg 3 must not be zero")) := by
  constructor
  · intro hneg
    unfold SimpleDocRetrieval.chunk_text
    by_cases hT : text = []
    · rw [if_pos hT]
    · rw [if_neg hT, if_neg (by omega), if_pos hneg]
  · intro hz
    unfold SimpleDocRetrieval.chunk_text
    by_cases hT : text = []
    · rw [if_pos hT, if_pos hT]
    · rw [if_neg hT, if_pos hz, if_neg hT]

/-- C4 amendment witness at size 5, overlap 7, text "hi". -/
theorem chunk_text_no_validation_w :
    ((5 : Int) - 7 < 0) ∧
    SimpleDocRetrieval.chunk_text 5 7 (("hi").toList) = ChunkResult.ok [] :=
  ⟨by decide, (chunk_text_no_validation 5 7 (("hi").toList)).1 (by decide)⟩

/-- C2 witness at size 5, overlap 1, text "hello world". -/
theorem chunk_text_correct_w :
    1 < 5 ∧
    (∃ cs, SimpleDocRetrieval.chunk_text ((5 : Nat) : Int) ((1 : Nat) : Int)
          (("hello world").toList) = ChunkResult.ok cs ∧
      (∀ c ∈ cs, c ≠ []) ∧
      cs.length = ((("hello world").toList).length + (5 - 1) - 1) / (5 - 1) ∧
      reassemble 1 cs = ("hello world").toList) :=
  ⟨by decide, chunk_text_correct 5 1 (by decide) (("hello world").toList)⟩

/-- C5: a call whose extracted text is the empty string is rejected: it
returns `False` and leaves the store untouched, and `add_document`
preserves the invariant that no stored document has empty extracted
text. -/
theorem add_document_empty_text (st : SimpleDocRetrieval) (path name : String) :
    st.add_document path name (some []) = (false, st) ∧
    ((∀ d ∈ st.documents, d.2.full_text ≠ []) →
      ∀ (path2 name2 : String) (ex : Option (List Char)),
        ∀ d ∈ (st.add_document path2 name2 ex).2.documents, d.2.full_text ≠ []) := by
  constructor
  · unfold SimpleDocRetrieval.add_document
    dsimp only
    rw [if_pos rfl]
  · intro hinv path2 name2 ex d hd
    unfold SimpleDocRetrieval.add_document at hd
    cases ex with
    | none => exact hinv d hd
    | some t =>
      dsimp only at hd
      by_cases ht : t = []
      · rw [if_pos ht] at hd
        exact hinv d hd
      · rw [if_neg ht] at hd
        cases hco : SimpleDocRetrieval.chunk_text st.chunk_size st.chunk_overlap t with
        | valueError msg =>
          rw [hco] at hd
          exact hinv d hd
        | ok cs =>
          rw [hco] at hd
          dsimp only at hd
          rcases mem_dictSet _ _ _ d hd with h | h
          · exact hinv d h
          · rw [h]
            simpa using ht

/-- C5 witness on a concrete store with one non-empty document. -/
theorem add_document_empty_text_w :
    demoStore.add_document ("p") ("x.txt") (some []) = (false, demoStore) ∧
    (∀ d ∈ demoStore.documents, d.2.full_text ≠ []) ∧
    (∀ d ∈ (demoStore.add_document ("q") ("y.txt") none).2.documents,
      d.2.full_text ≠ []) := by
  refine ⟨(add_document_empty_text demoStore ("p") ("x.txt")).1, by decide, ?_⟩
  exact (add_document_empty_text demoStore ("p") ("x.txt")).2 (by decide) ("q") ("y.txt") none

/-- C6: with an empty document dictionary, `query` returns the fixed
"No documents have been added to the system." sentinel directly; the
`QueryOutcome.reply` constructor records that `generate_content` is never
invoked by the call. -/
theorem query_no_documents (st : SimpleDocRetrieval) (question : String)
    (h : st.documents = []) :
    st.query question = SimpleDocRetrieval.QueryOutcome.reply SimpleDocRetrieval.noDocumentsMsg := by
  unfold SimpleDocRetrieval.query
  rw [if_pos h]

/-- C6 witness on a concrete empty store. -/
theorem query_no_documents_w :
    ({ demoStore with documents := [] } : SimpleDocRetrieval).documents = [] ∧
    ({ demoStore with documents := [] } : SimpleDocRetrieval).query ("hi")
      = SimpleDocRetrieval.QueryOutcome.reply SimpleDocRetrieval.noDocumentsMsg :=
  ⟨rfl, query_no_documents _ ("hi") rfl⟩

/-- C10: `clear` returns `True`, empties the documents registry (so a
subsequent `query` returns the no-documents sentinel) and leaves every
other field — api_key, model, temp_dir, chunk_size, chunk_overlap —
unchanged. -/
theorem clear_resets (st : SimpleDocRetrieval) (question : String) :
    st.clear = (true, { st with documents := [] }) ∧
    (st.clear).2.documents = [] ∧
    (st.clear).2.query question
      = SimpleDocRetrieval.QueryOutcome.reply SimpleDocRetrieval.noDocumentsMsg ∧
    (st.clear).2.api_key = st.api_key ∧
    (st.clear).2.model = st.model ∧
    (st.clear).2.temp_dir = st.temp_dir ∧
    (st.clear).2.chunk_size = st.chunk_size ∧
    (st.clear).2.chunk_overlap = st.chunk_overlap := by
  refine ⟨rfl, rfl, ?_, rfl, rfl, rfl, rfl, rfl⟩
  unfold SimpleDocRetrieval.query SimpleDocRetrieval.clear
  rw [if_pos rfl]

/-- C1 counterexample: with the document name "a.txt" already present in
the store (mapped to path "p1" with text "x"), `add_document` for a file
with basename "a.txt" (path "p2", extracted text "yz") is not rejected: it
returns `True` and the stored Document for "a.txt" is replaced by the new
path, chunks and text. -/
theorem add_document_duplicate_cx :
    List.lookup ("a.txt") demoStore.documents
      = some ({ path := ("p1"), chunks := [("x").toList], full_text := ("x").toList }) ∧
    (demoStore.add_document ("p2") ("a.txt") (some (("yz").toList))).1 = true ∧
    List.lookup ("a.txt")
        (demoStore.add_document ("p2") ("a.txt") (some (("yz").toList))).2.documents
      = some ({ path := ("p2"), chunks := [("yz").toList], full_text := ("yz").toList }) := by
  refine ⟨by decide, ?_, ?_⟩ <;>
    simp [demoStore, SimpleDocRetrieval.add_document, SimpleDocRetrieval.chunk_text,
      pyRangeUp, pySlice, dictSet, List.lookup]

/-- C1 amended: `add_document` never rejects a name that is already
present.  For any store state and any non-empty extracted text whose
chunking succeeds, the call returns `True` and (over)writes the stored
Document for that name with the new path, chunks and full text; re-adding
the same file immediately afterwards returns `True` again and leaves the
store exactly as after the first call — in particular, the chunk count for
that name after the second call equals the chunk count after the first. -/
theorem add_document_overwrites (st : SimpleDocRetrieval) (path name : String)
    (t : List Char) (ht : t ≠ []) (cs : List (List Char))
    (hc : SimpleDocRetrieval.chunk_text st.chunk_size st.chunk_overlap t
      = ChunkResult.ok cs) :
    st.add_document path name (some t)
        = (true, { st with documents := dictSet st.documents name ({ path := path, chunks := cs, full_text := t }) }) ∧
    List.lookup name (st.add_document path name (some t)).2.documents
        = some ({ path := path, chunks := cs, full_text := t }) ∧
    (st.add_document path name (some t)).2.add_document path name (some t)
        = (true, (st.add_document path name (some t)).2) := by
  have h1 : st.add_document path name (some t)
      = (true, { st with documents := dictSet st.documents name ({ path := path, chunks := cs, full_text := t }) }) := by
    unfold SimpleDocRetrieval.add_document
    dsimp only
    rw [if_neg ht, hc]
  refine ⟨h1, ?_, ?_⟩
  · rw [h1]
    exact lookup_dictSet _ _ _
  · rw [h1]
    unfold SimpleDocRetrieval.add_document
    dsimp only
    rw [if_neg ht, hc]
    dsimp only
    rw [dictSet_dictSet]

/-- C1 amendment witness: adding "a.txt" (text "yz") over the demo store
that already holds "a.txt", twice; the second call changes nothing. -/
theorem add_document_overwrites_w :
    (("yz").toList ≠ []) ∧
    SimpleDocRetrieval.chunk_text demoStore.chunk_size demoStore.chunk_overlap
        (("yz").toList) = ChunkResult.ok [("yz").toList] ∧
    (demoStore.add_document ("p2") ("a.txt") (some (("yz").toList))).2.add_document
        ("p2") ("a.txt") (some (("yz").toList))
      = (true, (demoStore.add_document ("p2") ("a.txt") (some (("yz").toList))).2) := by
  have hc : SimpleDocRetrieval.chunk_text demoStore.chunk_size demoStore.chunk_overlap
      (("yz").toList) = ChunkResult.ok [("yz").toList] := by
    simp [demoStore, SimpleDocRetrieval.chunk_text, pyRangeUp, pySlice]
  exact ⟨by decide, hc,
    (add_document_overwrites demoStore ("p2") ("a.txt") (("yz").toList)
      (by decide) [("yz").toList] hc).2.2⟩

/-- C7: in the assembled context, the block for a document with chunks
holds a beginning excerpt equal to the first chunk truncated to 500
characters, and an "Excerpt from end" section exactly when the document has
more than one chunk; a single-chunk document contributes no end-excerpt
block. -/
theorem docBlock_excerpts (name : String) (doc : Document) (c0 : List Char)
    (rest : List (List Char)) (h : doc.chunks = c0 :: rest) :
    SimpleDocRetrieval.docBlock name doc
      = ("Document: ").toList ++ name.toList ++ ("\n").toList
        ++ ("Excerpt from beginning:\n").toList
        ++ (c0.take 500 ++ ("...\n\n").toList)
        ++ (if 1 < doc.chunks.length then
              ("Excerpt from end:\n").toList
              ++ (("...").toList
                  ++ ((rest.getLastD c0).drop ((rest.getLastD c0).length - 500))
                  ++ ("\n\n").toList)
            else []) := by
  unfold SimpleDocRetrieval.docBlock
  rw [h]
  dsimp only
  cases rest with
  | nil => simp
  | cons r rs =>
    rw [if_pos (by simp : (r :: rs : List (List Char)) ≠ [])]
    rw [if_pos (by simp +arith : 1 < (c0 :: r :: rs : List (List Char)).length)]

/-- C7 witness: a single-chunk document contributes no end excerpt. -/
theorem docBlock_excerpts_w :
    (({ path := ("p1"), chunks := [("x").toList], full_text := ("x").toList }
        : Document).chunks = ("x").toList :: []) ∧
    SimpleDocRetrieval.docBlock ("a.txt")
        ({ path := ("p1"), chunks := [("x").toList], full_text := ("x").toList })
      = ("Document: ").toList ++ ("a.txt").toList ++ ("\n").toList
        ++ ("Excerpt from beginning:\n").toList
        ++ ((("x").toList).take 500 ++ ("...\n\n").toList)
        ++ (if 1 < ({ path := ("p1"), chunks := [("x").toList], full_text := ("x").toList }
              : Document).chunks.length then
              ("Excerpt from end:\n").toList
              ++ (("...").toList
                  ++ ((([] : List (List Char)).getLastD (("x").toList)).drop
                      ((([] : List (List Char)).getLastD (("x").toList)).length - 500))
                  ++ ("\n\n").toList)
            else []) :=
  ⟨rfl, docBlock_excerpts ("a.txt") _ (("x").toList) [] rfl⟩

/-- C8: a file extension outside the supported set is rejected before any
chunking: `extract_text_from_file` returns `None`,
`FileProcessor.process_file` returns a failure record with an
"Unsupported file type" error, and an `add_document` call whose extraction
returned `None` returns `False` with the store unchanged. -/
theorem unsupported_extension_rejected (raw_ext fp : String)
    (oracle : FileProcessor.ProcessResult) (st : SimpleDocRetrieval)
    (path name : String) (pdfText txtText docxText : List Char)
    (h1 : FileProcessor.supported_extensions.contains (pyLower (lstripDot raw_ext)) = false)
    (h2 : pyLower raw_ext ∉ [(".pdf"), (".txt"), (".docx")]) :
    SimpleDocRetrieval.extract_text_from_file raw_ext pdfText txtText docxText = none ∧
    FileProcessor.process_file fp raw_ext oracle
      = { success := false, error := some (("Unsupported file type: ") ++ pyLower (lstripDot raw_ext)), file_path := some fp, file_type := none } ∧
    st.add_document path name none = (false, st) := by
  refine ⟨?_, ?_, rfl⟩
  · have e1 : ¬ (pyLower raw_ext = (".pdf")) := fun he => h2 (by simp [he])
    have e2 : ¬ (pyLower raw_ext = (".txt")) := fun he => h2 (by simp [he])
    have e3 : ¬ (pyLower raw_ext = (".docx")) := fun he => h2 (by simp [he])
    unfold SimpleDocRetrieval.extract_text_from_file
    rw [if_neg e1, if_neg e2, if_neg e3]
  · unfold FileProcessor.process_file
    rw [if_neg (by simp only [h1]; decide)]

/-- C8 witness at the extension ".exe". -/
theorem unsupported_extension_rejected_w :
    FileProcessor.supported_extensions.contains (pyLower (lstripDot (".exe"))) = false ∧
    pyLower (".exe") ∉ [(".pdf"), (".txt"), (".docx")] ∧
    (SimpleDocRetrieval.extract_text_from_file (".exe") [] [] [] = none ∧
     FileProcessor.process_file ("/u/f.exe") (".exe")
         ({ success := true, error := none, file_path := none, file_type := none })
       = { success := false, error := some (("Unsupported file type: ") ++ pyLower (lstripDot (".exe"))), file_path := some ("/u/f.exe"), file_type := none } ∧
     demoStore.add_document ("/u/f.exe") ("f.exe") none = (false, demoStore)) := by
  refine ⟨by decide, by decide, ?_⟩
  exact unsupported_extension_rejected (".exe") ("/u/f.exe") _ demoStore
    ("/u/f.exe") ("f.exe") [] [] [] (by decide) (by decide)

/-- C9: `generate_multimodal_response` with a determined content type
outside image/*, audio/*, video/* returns the fixed
"Unsupported media type." string without invoking the generation model
(`MMOutcome.reply`); with a content type in one of those three categories
it invokes the model once with the prompt text and the raw file bytes
tagged with their MIME type (`MMOutcome.call`). -/
theorem multimodal_dispatch (guessed : Option String) (ext text_prompt : String)
    (media_bytes : List UInt8) (context : String) :
    (pyStartswith (GeminiHandler.contentTypeOf guessed ext) ("image/") = false →
     pyStartswith (GeminiHandler.contentTypeOf guessed ext) ("audio/") = false →
     pyStartswith (GeminiHandler.contentTypeOf guessed ext) ("video/") = false →
     GeminiHandler.generate_multimodal_response guessed ext text_prompt media_bytes context
       = GeminiHandler.MMOutcome.reply ("Unsupported media type.")) ∧
    ((pyStartswith (GeminiHandler.contentTypeOf guessed ext) ("image/") = true ∨
      pyStartswith (GeminiHandler.contentTypeOf guessed ext) ("audio/") = true ∨
      pyStartswith (GeminiHandler.contentTypeOf guessed ext) ("video/") = true) →
     GeminiHandler.generate_multimodal_response guessed ext text_prompt media_bytes context
       = GeminiHandler.MMOutcome.call
           [GeminiHandler.Part.text (GeminiHandler.buildPromptText text_prompt context),
            GeminiHandler.Part.blob (GeminiHandler.contentTypeOf guessed ext) media_bytes]) := by
  constructor
  · intro hI hA hV
    unfold GeminiHandler.generate_multimodal_response
    simp [hI, hA, hV]
  · intro h
    unfold GeminiHandler.generate_multimodal_response
    by_cases hI : pyStartswith (GeminiHandler.contentTypeOf guessed ext) ("image/") = true
    · simp [hI]
    · have hI' : pyStartswith (GeminiHandler.contentTypeOf guessed ext) ("image/") = false :=
        Bool.eq_false_iff.mpr hI
      rcases h with h | h | h
      · exact absurd h hI
      · simp [hI', h]
      · simp [hI', h]

/-- C9 witness: a PNG image (guessed MIME type "image/png") leads to a
single multimodal call with the prompt text and the raw bytes. -/
theorem multimodal_dispatch_w :
    (pyStartswith (GeminiHandler.contentTypeOf (some ("image/png")) (".png")) ("image/") = true ∨
     pyStartswith (GeminiHandler.contentTypeOf (some ("image/png")) (".png")) ("audio/") = true ∨
     pyStartswith (GeminiHandler.contentTypeOf (some ("image/png")) (".png")) ("video/") = true) ∧
    GeminiHandler.generate_multimodal_response (some ("image/png")) (".png") ("hi")
        [(7 : UInt8)] ("")
      = GeminiHandler.MMOutcome.call
          [GeminiHandler.Part.text (GeminiHandler.buildPromptText ("hi") ("")),
           GeminiHandler.Part.blob (GeminiHandler.contentTypeOf (some ("image/png")) (".png"))
             [(7 : UInt8)]] := by
  refine ⟨Or.inl (by decide), ?_⟩
  exact (multimodal_dispatch (some ("image/png")) (".png") ("hi") [(7 : UInt8)] ("")).2
    (Or.inl (by decide))
